import Mathlib

/-!
Verification of the predicate expression engine in `src/predicate.c`.

The engine evaluates a tree of predicate nodes (`Predicate` in C, `Pred`
here) against a shared argument cursor (`JSArguments` in C, modelled as the
list of remaining arguments).  Dynamic values (`JSValue`) are modelled by
the inductive `JSVal`; external runtime services that `predicate.c` only
calls into (the libregexp compile/exec entry points, `JS_Call`,
`JS_IsInstanceOf`, `js_value_equals`, `js_value_type`) are collected into a
parameter structure `Ext`, mirroring the spec's "external collaborators"
boundary.

Modelling conventions:
* Strings are Lean `String`s (already decoded text); `utf8_to_unicode` and
  `input_buffer_getc` therefore become "take the code points of the text".
* 64-bit integers are represented by their bit pattern as a `Nat < 2^64`.
* Double-precision results of the arithmetic node family are represented
  symbolically by the constructor `JSVal.fnum` (and `JSVal.fsqrt`): the
  conversions and libm operations are external, and no claim below depends
  on a numeric double result.
* `JSVal.uninit` marks an uninitialized C stack slot, `JSVal.throwTypeError`
  the pending-exception value produced by `JS_ThrowTypeError`, and
  `JSVal.ubNullDeref` the undefined behaviour of invoking `lre_exec` with a
  NULL bytecode pointer.
-/

namespace QjsPredicate

/-- Binary arithmetic node kinds (`PREDICATE_ADD` .. `PREDICATE_ATAN2`). -/
inductive BinOp where
  | add | sub | mul | div | mod | bor | band | pow | atan2
deriving DecidableEq

/-- Boolean combinator kinds (`PREDICATE_OR`, `PREDICATE_AND`, `PREDICATE_XOR`). -/
inductive BoolOp where
  | or | and | xor
deriving DecidableEq

mutual

/-- Dynamic values (`JSValue`).  Objects are modelled as association lists of
named properties; callables are identified by an id resolved through
`Ext.call`; `pred` wraps a predicate node held as a value (the result of
`js_predicate_data` being non-null). -/
inductive JSVal where
  | undefined
  | null
  | bool (b : Bool)
  | int (n : Int)
  | str (s : String)
  | obj (props : List (String × JSVal))
  | func (fid : Nat)
  | pred (p : Pred)
  | uninit
  | throwTypeError
  | ubNullDeref
  | stuck
  | fnum (op : BinOp) (l r : JSVal)
  | fsqrt (v : JSVal)

/-- Predicate nodes (`struct Predicate`), one constructor per
`enum predicate_id` member handled by `predicate_eval`. -/
inductive Pred where
  | type (flags : Nat)
  | charset (set : String) (chars : List Nat)
  | string (s : String)
  | notnot (predicate : JSVal)
  | not (predicate : JSVal)
  | bnot (predicate : JSVal)
  | sqrt (predicate : JSVal)
  | binary (op : BinOp) (left right : JSVal)
  | boolean (op : BoolOp) (predicates : List JSVal)
  | regexp (source : String) (flags : Nat) (bytecode : Option Nat)
  | instanceOf (predicate : JSVal)
  | prototypeIs (predicate : JSVal)
  | equal (predicate : JSVal)
  | property (atom : Option String) (predicate : JSVal)
  | member (object : JSVal)
  | shift (n : Nat) (predicate : JSVal)
  | function (fid : Nat) (thisVal : JSVal) (arity : Nat)

end

/-- External runtime services consumed by `predicate.c` (out of scope per the
spec §1): the libregexp entry points, `JS_Call`, and the dynamic-value
helpers.  Theorems quantify over an arbitrary `Ext`. -/
structure Ext where
  /-- `regexp_compile`: bytecode handle on success, `none` on compile error. -/
  compile : String → Nat → Option Nat
  /-- `lre_get_capture_count` on a compiled bytecode handle. -/
  captureCount : Nat → Nat
  /-- `lre_exec` from offset 0: whether the compiled form matches the input. -/
  lreExec : Nat → List Nat → Bool
  /-- `JS_Call f this args`. -/
  call : Nat → JSVal → List JSVal → JSVal
  /-- `JS_IsInstanceOf`. -/
  isInstanceOf : JSVal → JSVal → Bool
  /-- prototype identity test of `PREDICATE_PROTOTYPEIS`. -/
  protoIs : JSVal → JSVal → Bool
  /-- `js_value_equals`. -/
  valueEquals : JSVal → JSVal → Bool
  /-- `js_value_type`: bitmask classification of a value's dynamic type. -/
  valueType : JSVal → Nat

/-- `js_is_null_or_undefined`. -/
def js_is_null_or_undefined : JSVal → Bool
  | .null => true
  | .undefined => true
  | _ => false

/-- Whether a value carries a predicate node (`js_predicate_data` non-null). -/
def isPredVal : JSVal → Bool
  | .pred _ => true
  | _ => false

/-- `JS_IsFunction`. -/
def isFuncVal : JSVal → Bool
  | .func _ => true
  | _ => false

/-- `JS_IsObject`: in quickjs, plain objects, functions and class instances
(predicate instances included) all carry the object tag. -/
def js_is_object : JSVal → Bool
  | .obj _ => true
  | .func _ => true
  | .pred _ => true
  | _ => false

/-- `predicate_callable`: `predicate_is(value) || JS_IsFunction(ctx, value)`. -/
def predicate_callable (v : JSVal) : Bool :=
  isPredVal v || isFuncVal v

/-- `JS_ToBool` on the modelled value domain.  The marker constructors never
reach a `JS_ToBool` in any claim; they are mapped to `false` except for the
symbolic double results, which are mapped to `true` (no claim depends on the
truthiness of an arithmetic result). -/
def toBool : JSVal → Bool
  | .undefined => false
  | .null => false
  | .bool b => b
  | .int n => n ≠ 0
  | .str s => s ≠ ""
  | .obj _ => true
  | .func _ => true
  | .pred _ => true
  | .uninit => false
  | .throwTypeError => false
  | .ubNullDeref => false
  | .stuck => false
  | .fnum _ _ _ => true
  | .fsqrt _ => true

/-- `JS_ToInt64` producing the 64-bit two's-complement bit pattern as a
`Nat < 2^64`.  Values whose numeric conversion is external or NaN (strings,
objects, symbolic doubles) convert to 0, as no claim depends on them. -/
def toInt64 : JSVal → Nat
  | .int n => (n % (2 ^ 64 : Int)).toNat
  | .bool b => if b then 1 else 0
  | _ => 0

/-- Modelled from the spec (§3, Argument Cursor; the `JSArguments` helpers
live in headers not present under `src/`): `shift()` returns the argument at
the read index and advances by one; on an exhausted cursor it yields
`JS_UNDEFINED` without advancing. -/
def js_arguments_shift : List JSVal → JSVal × List JSVal
  | [] => (.undefined, [])
  | v :: rest => (v, rest)

/-- Modelled from the spec (§3): `shiftN(n)` advances the cursor by `n`
without returning the skipped arguments. -/
def js_arguments_shiftn (n : Nat) (st : List JSVal) : List JSVal :=
  st.drop n

/-- `utf8_to_unicode`: decodes the stored literal into its code points.
Strings are modelled as decoded text, so this is the code-point sequence of
the string. -/
def utf8_to_unicode (s : String) : List Nat :=
  s.data.map Char.toNat

/-- `js_input_chars` followed by `input_buffer_getc` iteration: the code
points of a text value.  Non-string coercion (`JS_ToString`) is external;
the claims only exercise string arguments, others decode to the empty
sequence. -/
def jsInputChars : JSVal → List Nat
  | .str s => utf8_to_unicode s
  | _ => []

/-- `JS_GetProperty` on a modelled object: first binding of the name, else
`JS_UNDEFINED`.  Reading a named property of a non-`obj` object-like value
(function or predicate instance) is not exercised by any claim and yields
`JS_UNDEFINED`. -/
def js_get_property (v : JSVal) (name : String) : JSVal :=
  match v with
  | .obj props => ((props.lookup name).getD .undefined)
  | _ => .undefined

/-- `JS_HasProperty` on a modelled object. -/
def js_has_property (v : JSVal) (name : String) : Bool :=
  match v with
  | .obj props => (props.lookup name).isSome
  | _ => false

/-- `JS_ValueToAtom`: property-key conversion.  Strings are their own key,
integers convert to their decimal text; other conversions are external and
unexercised. -/
def js_value_to_atom : JSVal → String
  | .str s => s
  | .int n => toString n
  | _ => ""

/-- The argument-pulling loop of the `PREDICATE_FUNCTION` case:
`for(i = 0; i < nargs; i++) argv[i++] = js_arguments_shift(args);`.
The index is incremented twice per iteration (once by `argv[i++]`, once by
the `for` update), so each iteration fills `argv[i]` and leaves `argv[i+1]`
untouched — an uninitialized slot of the variable-length array `argv`.
Returns the `nargs`-element argument vector as passed to `JS_Call` together
with the advanced cursor. -/
def funcPull : Nat → List JSVal → List JSVal × List JSVal
  | 0, st => ([], st)
  | 1, st =>
    let (a, st') := js_arguments_shift st
    ([a], st')
  | n + 2, st =>
    let (a, st') := js_arguments_shift st
    let (rest, st'') := funcPull n st'
    (a :: .uninit :: rest, st'')

mutual

/-- `predicate_eval(pr, ctx, args)`: dispatch on the node kind.  Returns the
result value, the advanced cursor, and the node as left behind by its
in-place lazy-cache mutations.  `fuel` only decreases when a *cursor
argument* that is itself a predicate instance is evaluated (the
`predicate_value` applied to a freshly shifted argument in the binary
arithmetic case); every other recursion is structural. -/
def predicate_eval (E : Ext) (fuel : Nat) (pr : Pred) (st : List JSVal) :
    JSVal × List JSVal × Pred :=
  match pr with
  | .type flags =>
    let (v, st') := js_arguments_shift st
    (.bool (E.valueType v &&& flags != 0), st', .type flags)
  | .charset set chars =>
    let (v, st') := js_arguments_shift st
    let input := jsInputChars v
    -- if(pr->charset.chars.size == 0 && pr->charset.chars.data == 0) fill:
    -- a vector into which no element was ever put keeps data == 0, so the
    -- C guard is equivalent to emptiness of the cached code-point list.
    let chars' := if chars = [] then utf8_to_unicode set else chars
    let r : JSVal := if input.all (chars'.contains ·) then .int 1 else .int 0
    (r, st', .charset set chars')
  | .string s =>
    let (v, st') := js_arguments_shift st
    let input := jsInputChars v
    let lit := utf8_to_unicode s
    -- if(input.size >= len && !memcmp(input.data, str, len)) ret = 1;
    -- ret was initialized to JS_UNDEFINED, so a failed prefix test yields
    -- JS_UNDEFINED, not false.
    let r : JSVal :=
      if lit.length ≤ input.length ∧ input.take lit.length = lit then .int 1 else .undefined
    (r, st', .string s)
  | .notnot p =>
    let (r, st', p') := predicate_value E fuel p st
    (.bool (toBool r), st', .notnot p')
  | .not p =>
    let (r, st', p') := predicate_value E fuel p st
    (.bool (!toBool r), st', .not p')
  | .bnot p =>
    let (r, st', p') := predicate_value E fuel p st
    (.int (Int.ofNat ((2 ^ 64 - 1) - toInt64 r)), st', .bnot p')
  | .sqrt p =>
    let (r, st', p') := predicate_value E fuel p st
    (.fsqrt r, st', .sqrt p')
  | .binary op l r =>
    -- for(i = 0; i < 2; i++) { if(nullish[i]) values[i] = js_arguments_shift(args);
    --                          values[i] = predicate_value(ctx, values[i], args); }
    let (lv, st1, l') := binary_operand E fuel l st
    let (rv, st2, r') := binary_operand E fuel r st1
    -- both sides pass through JS_ToFloat64 and the double operation is
    -- applied; the double result is represented symbolically.
    (.fnum op lv rv, st2, .binary op l' r')
  | .boolean .or ops =>
    let (r, st', ops') := eval_or E fuel ops st .undefined
    (r, st', .boolean .or ops')
  | .boolean .and ops =>
    let (r, st', ops') := eval_and E fuel ops st .undefined
    (r, st', .boolean .and ops')
  | .boolean .xor ops =>
    let (acc, st', ops') := eval_xor E fuel ops st 0
    (.int (Int.ofNat acc), st', .boolean .xor ops')
  | .regexp src flags bc =>
    let (re, st1) := js_arguments_shift st
    let input := jsInputChars re
    -- if(pr->regexp.bytecode == 0) capture_count = predicate_regexp_compile(pr, ctx);
    let bc' := if bc = none then E.compile src flags else bc
    match bc' with
    | none =>
      -- Compilation failed, pr->regexp.bytecode is still NULL, and the C
      -- nevertheless calls lre_exec(capture, pr->regexp.bytecode, ...):
      -- a NULL-pointer dereference inside the regex engine.
      (.ubNullDeref, st1, .regexp src flags none)
    | some h =>
      let result := E.lreExec h input
      -- if(result && args->c > 1): shift one extra argument and export the
      -- captures through it (callback invocation or array-sink population);
      -- the export only affects the shifted-out value, not the result, the
      -- cursor tail or the node.
      let st2 := if result ∧ st1.length > 1 then (js_arguments_shift st1).2 else st1
      (.bool result, st2, .regexp src flags (some h))
  | .instanceOf p =>
    let (v, st') := js_arguments_shift st
    (.bool (E.isInstanceOf v p), st', .instanceOf p)
  | .prototypeIs p =>
    let (v, st') := js_arguments_shift st
    (.bool (E.protoIs v p), st', .prototypeIs p)
  | .equal p =>
    let (v, st') := js_arguments_shift st
    (.bool (E.valueEquals v p), st', .equal p)
  | .property atom p =>
    let (o, st1) := js_arguments_shift st
    if js_is_object o then
      let r := js_get_property o (atom.getD "")
      if !js_is_null_or_undefined p && predicate_callable p then
        let (res, p') := predicate_callF E fuel p [r]
        (res, st1, .property atom p')
      else
        (r, st1, .property atom p)
    else
      (.throwTypeError, st1, .property atom p)
  | .member o =>
    let (m, st1) := js_arguments_shift st
    let key := js_value_to_atom m
    let r := if js_has_property o key then js_get_property o key else .undefined
    (r, st1, .member o)
  | .shift n w =>
    if n ≤ st.length then
      let (r, st', w') := predicate_value E fuel w (js_arguments_shiftn n st)
      (r, st', .shift n w')
    else
      (.undefined, st, .shift n w)
  | .function fid thisv k =>
    let (argv, st') := funcPull k st
    (E.call fid thisv argv, st', .function fid thisv k)
termination_by (fuel, sizeOf pr, 0)

/-- One iteration of the binary-arithmetic operand loop:
`if(nullish[i]) values[i] = js_arguments_shift(args);
values[i] = predicate_value(ctx, values[i], args);`.
Returns the resolved operand value, the advanced cursor, and the stored
operand after its cache mutations (unchanged when the slot was unset). -/
def binary_operand (E : Ext) (fuel : Nat) (x : JSVal) (st : List JSVal) :
    JSVal × List JSVal × JSVal :=
  if js_is_null_or_undefined x then
    let (a, s1) := js_arguments_shift st
    -- the second `predicate_value` of the loop body is applied to the
    -- freshly shifted argument, which is not a structural subterm of the
    -- node; this is the one place where `fuel` decreases, and `.stuck` is
    -- unreachable for cursors holding no predicate instances.
    match a with
    | .pred p =>
      (match fuel with
       | 0 => (.stuck, s1, x)
       | f + 1 =>
         let (r, s2, _) := predicate_eval E f p s1
         (r, s2, x))
    | .func fid => (E.call fid .undefined s1, s1, x)
    | a => (a, s1, x)
  else
    predicate_value E fuel x st
termination_by (fuel, sizeOf x, 1)

/-- `predicate_value(ctx, value, args)`: a predicate node evaluates against
the caller's in-progress cursor; a plain callable is invoked with whatever
arguments remain (without advancing the cursor); any other value is
duplicated and returned unchanged. -/
def predicate_value (E : Ext) (fuel : Nat) (v : JSVal) (st : List JSVal) :
    JSVal × List JSVal × JSVal :=
  match v with
  | .pred p =>
    let (r, st', p') := predicate_eval E fuel p st
    (r, st', .pred p')
  | .func fid => (E.call fid .undefined st, st, .func fid)
  | v => (v, st, v)
termination_by (fuel, sizeOf v, 0)

/-- `predicate_call(ctx, value, argc, argv)`: evaluate a predicate node over
a fresh cursor built from `argv`, or `JS_Call` a plain callable directly.
Returns the result together with the callee after its cache mutations. -/
def predicate_callF (E : Ext) (fuel : Nat) (callee : JSVal) (argv : List JSVal) :
    JSVal × JSVal :=
  match callee with
  | .pred p =>
    let (r, _, p') := predicate_eval E fuel p argv
    (r, .pred p')
  | .func fid => (E.call fid .undefined argv, callee)
  | _ => (.undefined, callee)
termination_by (fuel, sizeOf callee, 0)

/-- The `PREDICATE_OR` loop: evaluate operands left to right via
`predicate_value`, breaking at the first truthy result; `ret` starts as
`JS_UNDEFINED` and otherwise holds the last operand's (falsy) result. -/
def eval_or (E : Ext) (fuel : Nat) :
    List JSVal → List JSVal → JSVal → JSVal × List JSVal × List JSVal
  | [], st, ret => (ret, st, [])
  | v :: rest, st, _ =>
    let (r, st', v') := predicate_value E fuel v st
    if toBool r then
      (r, st', v' :: rest)
    else
      let (r2, st2, rest') := eval_or E fuel rest st' r
      (r2, st2, v' :: rest')
termination_by l _ _ => (fuel, sizeOf l, 0)

/-- The `PREDICATE_AND` loop: as `eval_or` with the break condition negated. -/
def eval_and (E : Ext) (fuel : Nat) :
    List JSVal → List JSVal → JSVal → JSVal × List JSVal × List JSVal
  | [], st, ret => (ret, st, [])
  | v :: rest, st, _ =>
    let (r, st', v') := predicate_value E fuel v st
    if toBool r then
      let (r2, st2, rest') := eval_and E fuel rest st' r
      (r2, st2, v' :: rest')
    else
      (r, st', v' :: rest)
termination_by l _ _ => (fuel, sizeOf l, 0)

/-- The `PREDICATE_XOR` loop: every operand is evaluated (no break), each
result is converted by `JS_ToInt64` and folded into the accumulator with
bitwise xor. -/
def eval_xor (E : Ext) (fuel : Nat) :
    List JSVal → List JSVal → Nat → Nat × List JSVal × List JSVal
  | [], st, acc => (acc, st, [])
  | v :: rest, st, acc =>
    let (r, st', v') := predicate_value E fuel v st
    let (a2, st2, rest') := eval_xor E fuel rest st' (acc ^^^ toInt64 r)
    (a2, st2, v' :: rest')
termination_by l _ _ => (fuel, sizeOf l, 0)

end

mutual

/-- `predicate_recursive_num_args`.  The C also routes the type / charset /
string payloads through the branch reading `pr->unary.predicate`; that read
goes through the union, and under the runtime's zero-initialized node
allocation the aliased bytes are neither a null/undefined `JSValue` nor a
predicate instance, so those kinds contribute 0 (which also matches the
spec §4.2 description: they have no operand slot). -/
def predicate_recursive_num_args : Pred → Nat
  | .type _ => 0
  | .charset _ _ => 0
  | .string _ => 0
  | .equal p => operand_num_args p
  | .instanceOf p => operand_num_args p
  | .prototypeIs p => operand_num_args p
  | .notnot p => operand_num_args p
  | .not p => operand_num_args p
  | .bnot p => operand_num_args p
  | .sqrt p => operand_num_args p
  | .binary _ l r => operand_num_args l + operand_num_args r
  | .boolean _ ops => boolean_num_args ops
  | .regexp _ _ _ => 1
  | .property atom p => (if atom = none then 1 else 0) + operand_num_args p
  | .member _ => 1
  | .shift _ _ => 1
  | .function _ _ k => k

/-- One operand slot of `predicate_recursive_num_args`:
`if(js_is_null_or_undefined(x)) n++; else if((other = js_predicate_data(x)))
n += predicate_recursive_num_args(other);`. -/
def operand_num_args : JSVal → Nat
  | .undefined => 1
  | .null => 1
  | .pred q => predicate_recursive_num_args q
  | _ => 0

/-- The combinator loop of `predicate_recursive_num_args`: only operands
that are predicate instances contribute. -/
def boolean_num_args : List JSVal → Nat
  | [] => 0
  | v :: rest => boolean_operand_num v + boolean_num_args rest

/-- One combinator operand of `predicate_recursive_num_args`:
`if((other = js_predicate_data(pr->boolean.predicates[i])))
n += predicate_recursive_num_args(other);`. -/
def boolean_operand_num : JSVal → Nat
  | .pred q => predicate_recursive_num_args q
  | _ => 0

end

/-- `predicate_clone`: field-by-field copy.  `JS_DupValue`d references share
their target (a reference-count increment), which value semantics renders as
the same value; owned buffers (`js_strndup` of the charset / string / regexp
literals, `vector_copy` of the decoded-charset cache) are byte-copied, again
the same value; the cloned regexp's bytecode is explicitly reset
(`ret->regexp.bytecode = 0`). -/
def predicate_clone : Pred → Pred
  | .type flags => .type flags
  | .charset set chars => .charset set chars
  | .string s => .string s
  | .equal p => .equal p
  | .instanceOf p => .instanceOf p
  | .prototypeIs p => .prototypeIs p
  | .notnot p => .notnot p
  | .not p => .not p
  | .bnot p => .bnot p
  | .sqrt p => .sqrt p
  | .binary op l r => .binary op l r
  | .boolean op ops => .boolean op ops
  | .regexp src flags _ => .regexp src flags none
  | .property atom p => .property atom p
  | .member o => .member o
  | .shift n w => .shift n w
  | .function fid thisv k => .function fid thisv k

/-- `predicate_regexp_compile`: `assert(pr->id == PREDICATE_REGEXP)` and
`assert(pr->regexp.bytecode == 0)`, then compile and return the capture
count (0 on compile failure, leaving the bytecode NULL).  `none` models an
assertion violation — an abort, not a return. -/
def predicate_regexp_compile (E : Ext) : Pred → Option (Nat × Pred)
  | .regexp src flags none =>
    match E.compile src flags with
    | some h => some (E.captureCount h, .regexp src flags (some h))
    | none => some (0, .regexp src flags none)
  | _ => none

/-- A concrete external-service instantiation used by witnesses. -/
def extOk : Ext where
  compile := fun s f => some (s.length + f + 1)
  captureCount := fun h => h
  lreExec := fun _ input => input != []
  call := fun fid _ argv => .obj [("fid", .int fid), ("argc", .int argv.length)]
  isInstanceOf := fun _ _ => false
  protoIs := fun _ _ => false
  valueEquals := fun _ _ => false
  valueType := fun v =>
    match v with
    | .undefined => 1
    | .null => 2
    | .bool _ => 4
    | .int _ => 8
    | .obj _ => 16
    | .str _ => 32
    | _ => 64

/-- A concrete external-service instantiation whose regexp compiler always
fails, used by witnesses of the compile-failure claims. -/
def extFail : Ext :=
  { extOk with compile := fun _ _ => none }

/-- The charset lazy-fill guard
`pr->charset.chars.size == 0 && pr->charset.chars.data == 0`: true when the
next evaluation of the node will run the decode-and-fill step. -/
def charset_fill_pending : Pred → Bool
  | .charset _ chars => chars.isEmpty
  | _ => false

/-- A pure literal operand in the sense of the spec's Xor property: a value
that is neither a predicate instance nor a callable, so `predicate_value`
returns it unchanged without touching the cursor. -/
def pureLit (v : JSVal) : Bool :=
  !(isPredVal v || isFuncVal v)

/-- A plain cursor argument: not a predicate instance (evaluating it cannot
re-enter the evaluator), as delivered by a fresh argument array. -/
def plainArg (v : JSVal) : Bool :=
  !isPredVal v

/-- The sub-language of predicate trees on which
`predicate_recursive_num_args` provably equals the number of cursor
arguments consumed by evaluation: binary arithmetic nodes whose operand
slots are unset, non-predicate literals, or nested such trees; xor
combinators over such operands; member nodes; and property nodes with a
present key and an absent (null/undefined) post-filter.  The C3
counterexample shows the equality fails outside this fragment. -/
inductive CountsConsumed : Pred → Prop where
  | binary (op : BinOp) (l r : JSVal)
      (hl : ∀ q, l = .pred q → CountsConsumed q)
      (hr : ∀ q, r = .pred q → CountsConsumed q) :
      CountsConsumed (.binary op l r)
  | xor (ops : List JSVal)
      (hops : ∀ v ∈ ops, ∀ q, v = .pred q → CountsConsumed q) :
      CountsConsumed (.boolean .xor ops)
  | member (o : JSVal) : CountsConsumed (.member o)
  | property (a : String) (filt : JSVal)
      (hf : js_is_null_or_undefined filt = true) :
      CountsConsumed (.property (some a) filt)

/-- C10: a Shift node whose skip count exceeds the remaining argument count
returns the undefined marker without evaluating the wrapped operand, without
advancing the cursor and without raising a failure
(`if(pr->shift.n <= args->c)` fails, leaving `ret = JS_UNDEFINED`). -/
theorem c10_shift_underflow (E : Ext) (fuel n : Nat) (w : JSVal) (st : List JSVal)
    (h : st.length < n) :
    predicate_eval E fuel (.shift n w) st = (.undefined, st, .shift n w) := by
  rw [predicate_eval]
  simp [Nat.not_le.mpr h]

/-- Witness for C10 at a concrete underflowing input. -/
theorem c10_shift_underflow_witness :
    ([JSVal.int 9] : List JSVal).length < 3 ∧
      predicate_eval extOk 0 (.shift 3 (.int 7)) [.int 9] =
        (.undefined, [.int 9], .shift 3 (.int 7)) :=
  ⟨by decide, c10_shift_underflow extOk 0 3 (.int 7) [.int 9] (by decide)⟩

/-- C2 (code bug): the `PREDICATE_FUNCTION` loop
`for(i = 0; i < nargs; i++) argv[i++] = js_arguments_shift(args);`
increments `i` twice per iteration.  For a declared arity of 2 and a cursor
holding `a :: b :: st`, only `a` is pulled (the cursor is left at
`b :: st`), and the callable is invoked with `argv = [a, <uninitialized>]`
instead of the claimed `[a, b]`. -/
theorem c2_function_pulls_half_the_arity (E : Ext) (fuel fid : Nat)
    (thisv a b : JSVal) (st : List JSVal) :
    predicate_eval E fuel (.function fid thisv 2) (a :: b :: st) =
      (E.call fid thisv [a, .uninit], b :: st, .function fid thisv 2) := by
  rw [predicate_eval]
  simp [funcPull, js_arguments_shift]

/-- C1 (code bug): when lazy compilation of a Regex node's pattern fails,
`pr->regexp.bytecode` stays NULL and `predicate_eval` nevertheless calls
`lre_exec(capture, pr->regexp.bytecode, ...)` — execution proceeds against
the unset compiled form (undefined behaviour) instead of surfacing a
distinguishable compile failure. -/
theorem c1_compile_failure_executes_null_bytecode (E : Ext) (fuel flags : Nat)
    (src : String) (v : JSVal) (st : List JSVal)
    (h : E.compile src flags = none) :
    predicate_eval E fuel (.regexp src flags none) (v :: st) =
      (.ubNullDeref, st, .regexp src flags none) := by
  rw [predicate_eval]
  simp [js_arguments_shift, h]

/-- Witness for C1: a concrete engine that rejects the pattern. -/
theorem c1_compile_failure_executes_null_bytecode_witness :
    extFail.compile "(" 0 = none ∧
      predicate_eval extFail 0 (.regexp "(" 0 none) [.str "abc"] =
        (.ubNullDeref, [], .regexp "(" 0 none) :=
  ⟨rfl, c1_compile_failure_executes_null_bytecode extFail 0 0 "(" (.str "abc") [] rfl⟩

/-- C5 counterexample: calling `predicate_regexp_compile` on a node whose
bytecode is already set violates `assert(pr->regexp.bytecode == 0)` (modelled
as `none`, an abort) — a second direct call does not succeed, so the
function is not idempotent as claimed. -/
theorem c5_second_compile_call_asserts :
    predicate_regexp_compile extOk (.regexp "a" 0 (some 2)) = none := rfl

/-- C5 (amended): compilation is lazy and at most once along the evaluation
path: evaluating an already-compiled Regex node executes the stored bytecode
and leaves it untouched (never overwritten), and `predicate_regexp_compile`
on an uncompiled node fills the cache from the pattern; but a second direct
`predicate_regexp_compile` call violates its assertion rather than
succeeding (see the counterexample). -/
theorem c5_lazy_compile_amended (E : Ext) (fuel flags h : Nat) (src : String)
    (v : JSVal) (st : List JSVal) (hc : E.compile src flags = some h) :
    (∀ h', predicate_eval E fuel (.regexp src flags (some h')) (v :: st) =
        (.bool (E.lreExec h' (jsInputChars v)),
         if E.lreExec h' (jsInputChars v) ∧ st.length > 1
           then (js_arguments_shift st).2 else st,
         .regexp src flags (some h'))) ∧
      predicate_regexp_compile E (.regexp src flags none) =
        some (E.captureCount h, .regexp src flags (some h)) ∧
      (predicate_eval E fuel (.regexp src flags none) (v :: st)).2.2 =
        .regexp src flags (some h) := by
  refine ⟨fun h' => ?_, ?_, ?_⟩
  · rw [predicate_eval]
    simp [js_arguments_shift]
  · rw [predicate_regexp_compile]
    rw [hc]
  · rw [predicate_eval]
    simp [js_arguments_shift, hc]

/-- Witness for C5 (amended) at a concrete engine and pattern. -/
theorem c5_lazy_compile_amended_witness :
    extOk.compile "ab" 0 = some 3 ∧
      (predicate_eval extOk 0 (.regexp "ab" 0 none) [.str "x"]).2.2 =
        .regexp "ab" 0 (some 3) :=
  ⟨rfl, (c5_lazy_compile_amended extOk 0 0 3 "ab" (.str "x") [] rfl).2.2⟩

/-- C8: a Property node consumes one argument; a non-object argument raises
the recoverable type failure (`JS_ThrowTypeError`); an object argument has
the named property read and, when the post-filter operand is present and
callable or a predicate, the read value is piped through it as a
single-argument call, otherwise the raw property value is returned. -/
theorem c8_property_eval (E : Ext) (fuel : Nat) (a : String) (filt v : JSVal)
    (props : List (String × JSVal)) (st : List JSVal) :
    (js_is_object v = false →
      predicate_eval E fuel (.property (some a) filt) (v :: st) =
        (.throwTypeError, st, .property (some a) filt)) ∧
    (js_is_null_or_undefined filt = false → predicate_callable filt = true →
      predicate_eval E fuel (.property (some a) filt) (.obj props :: st) =
        ((predicate_callF E fuel filt [js_get_property (.obj props) a]).1, st,
         .property (some a)
           (predicate_callF E fuel filt [js_get_property (.obj props) a]).2)) ∧
    (js_is_null_or_undefined filt = true →
      predicate_eval E fuel (.property (some a) filt) (.obj props :: st) =
        (js_get_property (.obj props) a, st, .property (some a) filt)) := by
  refine ⟨fun hobj => ?_, fun hnn hcall => ?_, fun hnull => ?_⟩
  · rw [predicate_eval]
    simp [js_arguments_shift, hobj]
  · rw [predicate_eval]
    simp [js_arguments_shift, js_is_object, hnn, hcall]
  · rw [predicate_eval]
    simp [js_arguments_shift, js_is_object, hnull]

/-- Witness for C8 at concrete inputs: a non-object argument, a predicate
post-filter, and an absent post-filter. -/
theorem c8_property_eval_witness :
    (js_is_object (.int 4) = false ∧
      predicate_eval extOk 0 (.property (some "k") .null) [.int 4] =
        (.throwTypeError, [], .property (some "k") .null)) ∧
    (predicate_eval extOk 0
        (.property (some "k") (.pred (.notnot .undefined))) [.obj [("k", .int 8)]] =
      ((predicate_callF extOk 0 (.pred (.notnot .undefined)) [js_get_property (.obj [("k", .int 8)]) "k"]).1,
       [],
       .property (some "k")
         (predicate_callF extOk 0 (.pred (.notnot .undefined)) [js_get_property (.obj [("k", .int 8)]) "k"]).2)) ∧
    (predicate_eval extOk 0 (.property (some "k") .undefined) [.obj [("k", .int 8)]] =
      (js_get_property (.obj [("k", .int 8)]) "k", [], .property (some "k") .undefined)) :=
  ⟨⟨rfl, (c8_property_eval extOk 0 "k" .null (.int 4) [] []).1 rfl⟩,
   (c8_property_eval extOk 0 "k" (.pred (.notnot .undefined)) .undefined [("k", .int 8)] []).2.1 rfl rfl,
   (c8_property_eval extOk 0 "k" .undefined .undefined [("k", .int 8)] []).2.2 rfl⟩

/-- C6 counterexample: for a Charset node with the empty literal the decode
leaves the cache empty, so the fill guard
(`chars.size == 0 && chars.data == 0`) still holds after an evaluation: the
decode re-runs on every evaluation, so the cache is not "filled at most
once and never recomputed" as claimed. -/
theorem c6_empty_literal_cache_refills :
    charset_fill_pending ((predicate_eval extOk 0 (.charset "" []) [.str "a"]).2.2) = true := by
  rw [predicate_eval]
  rfl

/-- C6 (amended): a Charset node consumes one argument as text; evaluation
uses the cached code points, filling them from the decoded literal when the
cache is empty, and returns truthy (1) iff every code point of the
argument's text appears in that set — vacuously for the empty argument; for
a node with a *nonempty* literal the cache is filled at most once (the fill
guard is cleared by the first evaluation), while a node with the empty
literal re-runs the vacuous decode on every evaluation (see the
counterexample). -/
theorem c6_charset_eval_amended (E : Ext) (fuel : Nat) (set : String)
    (chars : List Nat) (s : String) (st : List JSVal) :
    (predicate_eval E fuel (.charset set chars) (.str s :: st) =
      (.int (if (utf8_to_unicode s).all
               ((if chars = [] then utf8_to_unicode set else chars).contains ·)
             then 1 else 0),
       st,
       .charset set (if chars = [] then utf8_to_unicode set else chars))) ∧
    (predicate_eval E fuel (.charset set chars) (.str "" :: st)).1 = .int 1 ∧
    (set ≠ "" →
      charset_fill_pending
        ((predicate_eval E fuel (.charset set []) (.str s :: st)).2.2) = false) := by
  refine ⟨?_, ?_, fun hne => ?_⟩
  · rw [predicate_eval]
    simp only [js_arguments_shift, jsInputChars]
    refine Prod.ext ?_ rfl
    split_ifs <;> rfl
  · rw [predicate_eval]
    simp [js_arguments_shift, jsInputChars, utf8_to_unicode]
  · rw [predicate_eval]
    obtain ⟨l⟩ := set
    cases l with
    | nil => exact absurd rfl hne
    | cons c cs => simp [js_arguments_shift, charset_fill_pending, utf8_to_unicode]

/-- Witness for C6 (amended): `eval(Charset("abc"), ["cab"])` is truthy,
`eval(Charset("abc"), ["cat"])` is falsy, the empty argument is vacuously
truthy, and the first evaluation clears the fill guard. -/
theorem c6_charset_eval_amended_witness :
    (predicate_eval extOk 0 (.charset "abc" []) [.str "cab"]).1 = .int 1 ∧
    (predicate_eval extOk 0 (.charset "abc" []) [.str "cat"]).1 = .int 0 ∧
    (predicate_eval extOk 0 (.charset "abc" []) [.str ""]).1 = .int 1 ∧
    charset_fill_pending ((predicate_eval extOk 0 (.charset "abc" []) [.str "x"]).2.2) = false := by
  refine ⟨?_, ?_, ?_, ?_⟩
  · have h := (c6_charset_eval_amended extOk 0 "abc" [] "cab" []).1
    rw [h]
    rfl
  · have h := (c6_charset_eval_amended extOk 0 "abc" [] "cat" []).1
    rw [h]
    rfl
  · exact (c6_charset_eval_amended extOk 0 "abc" [] "" []).2.1
  · exact (c6_charset_eval_amended extOk 0 "abc" [] "x" []).2.2 (by decide)

/-- C4: the Or loop returns on (and stops at) the first truthy operand
result — later operands are neither evaluated nor consume cursor arguments
(the result and cursor are independent of the tail) — continues past a falsy
operand on the advanced cursor, and defaults to the last (falsy) result; the
And loop mirrors this with truthy and falsy exchanged. -/
theorem c4_or_and_short_circuit (E : Ext) (fuel : Nat) (v w : JSVal)
    (ws st : List JSVal) :
    (toBool (predicate_value E fuel v st).1 = true →
      ∀ tail, predicate_eval E fuel (.boolean .or (v :: tail)) st =
        ((predicate_value E fuel v st).1, (predicate_value E fuel v st).2.1,
         .boolean .or ((predicate_value E fuel v st).2.2 :: tail))) ∧
    (toBool (predicate_value E fuel v st).1 = false →
      ((predicate_eval E fuel (.boolean .or (v :: w :: ws)) st).1,
       (predicate_eval E fuel (.boolean .or (v :: w :: ws)) st).2.1) =
      ((predicate_eval E fuel (.boolean .or (w :: ws)) (predicate_value E fuel v st).2.1).1,
       (predicate_eval E fuel (.boolean .or (w :: ws)) (predicate_value E fuel v st).2.1).2.1)) ∧
    (predicate_eval E fuel (.boolean .or [v]) st =
      ((predicate_value E fuel v st).1, (predicate_value E fuel v st).2.1,
       .boolean .or [(predicate_value E fuel v st).2.2])) ∧
    (toBool (predicate_value E fuel v st).1 = false →
      ∀ tail, predicate_eval E fuel (.boolean .and (v :: tail)) st =
        ((predicate_value E fuel v st).1, (predicate_value E fuel v st).2.1,
         .boolean .and ((predicate_value E fuel v st).2.2 :: tail))) ∧
    (toBool (predicate_value E fuel v st).1 = true →
      ((predicate_eval E fuel (.boolean .and (v :: w :: ws)) st).1,
       (predicate_eval E fuel (.boolean .and (v :: w :: ws)) st).2.1) =
      ((predicate_eval E fuel (.boolean .and (w :: ws)) (predicate_value E fuel v st).2.1).1,
       (predicate_eval E fuel (.boolean .and (w :: ws)) (predicate_value E fuel v st).2.1).2.1)) ∧
    (predicate_eval E fuel (.boolean .and [v]) st =
      ((predicate_value E fuel v st).1, (predicate_value E fuel v st).2.1,
       .boolean .and [(predicate_value E fuel v st).2.2])) := by
  rcases hpv : predicate_value E fuel v st with ⟨r, st', v'⟩
  refine ⟨fun h tail => ?_, fun h => ?_, ?_, fun h tail => ?_, fun h => ?_, ?_⟩
  · simp only [hpv] at h
    rw [predicate_eval]
    simp [eval_or, hpv, h]
  · simp only [hpv] at h
    rw [predicate_eval, predicate_eval]
    rw [eval_or, eval_or]
    rcases hw : predicate_value E fuel w st' with ⟨rw', stw, w'⟩
    by_cases hb : toBool rw'
    · simp [eval_or, hpv, hw, h, hb]
    · rcases hrest : eval_or E fuel ws stw rw' with ⟨r2, st2, rest'⟩
      simp [eval_or, hpv, hw, h, hb, hrest]
  · rw [predicate_eval]
    rw [eval_or]
    by_cases hb : toBool r
    · simp [hpv, hb]
    · simp [hpv, hb, eval_or]
  · simp only [hpv] at h
    rw [predicate_eval]
    simp [eval_and, hpv, h]
  · simp only [hpv] at h
    rw [predicate_eval, predicate_eval]
    rw [eval_and, eval_and]
    rcases hw : predicate_value E fuel w st' with ⟨rw', stw, w'⟩
    by_cases hb : toBool rw'
    · rcases hrest : eval_and E fuel ws stw rw' with ⟨r2, st2, rest'⟩
      simp [eval_and, hpv, hw, h, hb, hrest]
    · simp [eval_and, hpv, hw, h, hb]
  · rw [predicate_eval]
    rw [eval_and]
    by_cases hb : toBool r
    · simp [hpv, hb, eval_and]
    · simp [hpv, hb]

/-- Witness for C4: concrete short circuits — a truthy first operand stops
the Or scan, a falsy first operand stops the And scan, and in both cases the
tail consumes nothing. -/
theorem c4_or_and_short_circuit_witness :
    toBool (predicate_value extOk 0 (.int 1) [.int 9]).1 = true ∧
      predicate_eval extOk 0 (.boolean .or [.int 1, .pred (.type 8)]) [.int 9] =
        ((predicate_value extOk 0 (.int 1) [.int 9]).1,
         (predicate_value extOk 0 (.int 1) [.int 9]).2.1,
         .boolean .or ((predicate_value extOk 0 (.int 1) [.int 9]).2.2 :: [.pred (.type 8)])) ∧
    toBool (predicate_value extOk 0 (.int 0) [.int 9]).1 = false ∧
      predicate_eval extOk 0 (.boolean .and [.int 0, .pred (.type 8)]) [.int 9] =
        ((predicate_value extOk 0 (.int 0) [.int 9]).1,
         (predicate_value extOk 0 (.int 0) [.int 9]).2.1,
         .boolean .and ((predicate_value extOk 0 (.int 0) [.int 9]).2.2 :: [.pred (.type 8)])) := by
  have ht : toBool (predicate_value extOk 0 (.int 1) [.int 9]).1 = true := by
    simp [predicate_value, toBool]
  have hf : toBool (predicate_value extOk 0 (.int 0) [.int 9]).1 = false := by
    simp [predicate_value, toBool]
  exact ⟨ht,
    (c4_or_and_short_circuit extOk 0 (.int 1) .undefined [] [.int 9]).1 ht [.pred (.type 8)],
    hf,
    (c4_or_and_short_circuit extOk 0 (.int 0) .undefined [] [.int 9]).2.2.2.1 hf [.pred (.type 8)]⟩

/-- The xor loop distributes over concatenation of the operand list: the
second segment is always processed, on the cursor and accumulator the first
segment left behind — the loop has no break. -/
theorem eval_xor_append (E : Ext) (fuel : Nat) (l₁ l₂ st : List JSVal) (acc : Nat) :
    eval_xor E fuel (l₁ ++ l₂) st acc =
      ((eval_xor E fuel l₂ (eval_xor E fuel l₁ st acc).2.1 (eval_xor E fuel l₁ st acc).1).1,
       (eval_xor E fuel l₂ (eval_xor E fuel l₁ st acc).2.1 (eval_xor E fuel l₁ st acc).1).2.1,
       (eval_xor E fuel l₁ st acc).2.2 ++
         (eval_xor E fuel l₂ (eval_xor E fuel l₁ st acc).2.1 (eval_xor E fuel l₁ st acc).1).2.2) := by
  induction l₁ generalizing st acc with
  | nil => simp [eval_xor]
  | cons v rest ih =>
    rcases hv : predicate_value E fuel v st with ⟨r, st', v'⟩
    simp only [List.cons_append]
    simp [eval_xor, hv, ih]

/-- On pure literal operands the xor loop is the plain left fold of
`JS_ToInt64` with bitwise xor, and consumes no cursor argument. -/
theorem eval_xor_pure (E : Ext) (fuel : Nat) (ops st : List JSVal) (acc : Nat)
    (h : ∀ v ∈ ops, pureLit v = true) :
    eval_xor E fuel ops st acc =
      (ops.foldl (fun a v => a ^^^ toInt64 v) acc, st, ops) := by
  induction ops generalizing acc with
  | nil => simp [eval_xor]
  | cons v rest ih =>
    have hv := h v (by simp)
    have hrest : ∀ u ∈ rest, pureLit u = true := fun u hu => h u (by simp [hu])
    have hval : predicate_value E fuel v st = (v, st, v) := by
      cases v with
      | pred q => simp [pureLit, isPredVal] at hv
      | func fid => simp [pureLit, isFuncVal] at hv
      | undefined => rw [predicate_value] <;> exact fun _ h => nomatch h
      | null => rw [predicate_value] <;> exact fun _ h => nomatch h
      | bool b => rw [predicate_value] <;> exact fun _ h => nomatch h
      | int n => rw [predicate_value] <;> exact fun _ h => nomatch h
      | str s => rw [predicate_value] <;> exact fun _ h => nomatch h
      | obj props => rw [predicate_value] <;> exact fun _ h => nomatch h
      | uninit => rw [predicate_value] <;> exact fun _ h => nomatch h
      | throwTypeError => rw [predicate_value] <;> exact fun _ h => nomatch h
      | ubNullDeref => rw [predicate_value] <;> exact fun _ h => nomatch h
      | stuck => rw [predicate_value] <;> exact fun _ h => nomatch h
      | fnum op a b => rw [predicate_value] <;> exact fun _ h => nomatch h
      | fsqrt a => rw [predicate_value] <;> exact fun _ h => nomatch h
    simp [eval_xor, hval, List.foldl]
    simp [ih (acc ^^^ toInt64 v) hrest]

/-- The xor fold is invariant under permutation of the operand list (bitwise
xor is associative and commutative). -/
theorem foldl_xor_perm {l l' : List JSVal} (h : l.Perm l') (acc : Nat) :
    l.foldl (fun a v => a ^^^ toInt64 v) acc =
      l'.foldl (fun a v => a ^^^ toInt64 v) acc := by
  induction h generalizing acc with
  | nil => rfl
  | cons x _ ih => simp [List.foldl, ih]
  | swap x y l =>
    simp only [List.foldl]
    have hswap : acc ^^^ toInt64 y ^^^ toInt64 x = acc ^^^ toInt64 x ^^^ toInt64 y := by
      rw [Nat.xor_assoc, Nat.xor_comm (toInt64 y), ← Nat.xor_assoc]
    rw [hswap]
  | trans _ _ ih1 ih2 => rw [ih1, ih2]

/-- C7: the Xor loop evaluates every operand left to right with no short
circuit (it distributes over any split of the operand list), converts each
result to a 64-bit integer and folds with bitwise xor; over pure
(non-cursor-consuming literal) operands the result is invariant under
reordering of the operands. -/
theorem c7_xor_fold_and_perm (E : Ext) (fuel : Nat) (ops ops' l₁ l₂ st : List JSVal)
    (hperm : ops.Perm ops') (hpure : ∀ v ∈ ops, pureLit v = true) :
    ((eval_xor E fuel (l₁ ++ l₂) st 0).1 =
        (eval_xor E fuel l₂ (eval_xor E fuel l₁ st 0).2.1 (eval_xor E fuel l₁ st 0).1).1) ∧
    (predicate_eval E fuel (.boolean .xor ops) st =
        (.int (Int.ofNat (ops.foldl (fun a v => a ^^^ toInt64 v) 0)), st,
          .boolean .xor ops)) ∧
    ((predicate_eval E fuel (.boolean .xor ops') st).1 =
        (predicate_eval E fuel (.boolean .xor ops) st).1) := by
  have hpure' : ∀ v ∈ ops', pureLit v = true := fun v hv =>
    hpure v (hperm.mem_iff.mpr hv)
  refine ⟨?_, ?_, ?_⟩
  · rw [eval_xor_append]
  · rw [predicate_eval]
    simp [eval_xor_pure E fuel ops st 0 hpure]
  · rw [predicate_eval, predicate_eval]
    simp [eval_xor_pure E fuel ops st 0 hpure, eval_xor_pure E fuel ops' st 0 hpure',
      foldl_xor_perm hperm]

/-- Witness for C7: swapping two pure literal operands leaves the xor result
unchanged. -/
theorem c7_xor_fold_and_perm_witness :
    ([JSVal.int 5, JSVal.bool true] : List JSVal).Perm [JSVal.bool true, JSVal.int 5] ∧
    (∀ v ∈ [JSVal.int 5, JSVal.bool true], pureLit v = true) ∧
    (predicate_eval extOk 0 (.boolean .xor [.bool true, .int 5]) [.str "s"]).1 =
      (predicate_eval extOk 0 (.boolean .xor [.int 5, .bool true]) [.str "s"]).1 :=
  ⟨List.Perm.swap (JSVal.bool true) (JSVal.int 5) [], by decide,
   (c7_xor_fold_and_perm extOk 0 [.int 5, .bool true] [.bool true, .int 5] [] []
      [.str "s"] (List.Perm.swap (JSVal.bool true) (JSVal.int 5) []) (by decide)).2.2⟩

/-- C9: `predicate_clone` copies every field — owned buffers are
byte-copied, `JS_DupValue`d references are shared by reference count, both
the same value in the model — and a cloned Regex node always starts with an
uncompiled (NULL) bytecode cache, never sharing a compiled form with the
original; when the original's stored compiled form is the engine's output
for the stored pattern, evaluating the clone gives the same result and
cursor as evaluating the original. -/
theorem c9_clone_independent (E : Ext) (fuel flags h : Nat) (src : String)
    (p : Pred) (v : JSVal) (st : List JSVal)
    (hc : E.compile src flags = some h) :
    (predicate_clone (.regexp src flags (some h)) = .regexp src flags none) ∧
    ((∀ s f b, p ≠ .regexp s f b) → predicate_clone p = p) ∧
    (((predicate_eval E fuel (predicate_clone (.regexp src flags (some h))) (v :: st)).1,
      (predicate_eval E fuel (predicate_clone (.regexp src flags (some h))) (v :: st)).2.1) =
     ((predicate_eval E fuel (.regexp src flags (some h)) (v :: st)).1,
      (predicate_eval E fuel (.regexp src flags (some h)) (v :: st)).2.1)) := by
  refine ⟨rfl, fun hnp => ?_, ?_⟩
  · cases p <;> first | rfl | exact absurd rfl (hnp _ _ _)
  · have hcl : predicate_clone (.regexp src flags (some h)) = .regexp src flags none := rfl
    rw [hcl, predicate_eval, predicate_eval]
    simp [js_arguments_shift, hc]

/-- Witness for C9 at a concrete engine, pattern and compiled handle. -/
theorem c9_clone_independent_witness :
    extOk.compile "ab" 0 = some 3 ∧
    predicate_clone (.regexp "ab" 0 (some 3)) = .regexp "ab" 0 none ∧
    ((predicate_eval extOk 0 (predicate_clone (.regexp "ab" 0 (some 3))) [.str "q"]).1,
     (predicate_eval extOk 0 (predicate_clone (.regexp "ab" 0 (some 3))) [.str "q"]).2.1) =
      ((predicate_eval extOk 0 (.regexp "ab" 0 (some 3)) [.str "q"]).1,
       (predicate_eval extOk 0 (.regexp "ab" 0 (some 3)) [.str "q"]).2.1) :=
  ⟨rfl,
   (c9_clone_independent extOk 0 0 3 "ab" (.type 0) (.str "q") [] rfl).1,
   (c9_clone_independent extOk 0 0 3 "ab" (.type 0) (.str "q") [] rfl).2.2⟩

/-- `predicate_value` on a value that is not a predicate instance leaves the
cursor unchanged (a callable is invoked with the remaining arguments without
advancing; any other value is duplicated). -/
theorem predicate_value_plain (E : Ext) (fuel : Nat) (v : JSVal) (st : List JSVal)
    (h : plainArg v = true) :
    (predicate_value E fuel v st).2.1 = st := by
  cases v with
  | pred q => simp [plainArg, isPredVal] at h
  | func fid => rw [predicate_value]
  | undefined => rw [predicate_value] <;> exact fun _ h' => nomatch h'
  | null => rw [predicate_value] <;> exact fun _ h' => nomatch h'
  | bool b => rw [predicate_value] <;> exact fun _ h' => nomatch h'
  | int n => rw [predicate_value] <;> exact fun _ h' => nomatch h'
  | str sv => rw [predicate_value] <;> exact fun _ h' => nomatch h'
  | obj props => rw [predicate_value] <;> exact fun _ h' => nomatch h'
  | uninit => rw [predicate_value] <;> exact fun _ h' => nomatch h'
  | throwTypeError => rw [predicate_value] <;> exact fun _ h' => nomatch h'
  | ubNullDeref => rw [predicate_value] <;> exact fun _ h' => nomatch h'
  | stuck => rw [predicate_value] <;> exact fun _ h' => nomatch h'
  | fnum op2 a1 a2 => rw [predicate_value] <;> exact fun _ h' => nomatch h'
  | fsqrt a1 => rw [predicate_value] <;> exact fun _ h' => nomatch h'

/-- Resolving one binary-arithmetic operand slot consumes exactly its
`operand_num_args` contribution from a cursor of plain arguments: one
argument for an unset slot, the nested tree's count for a predicate operand
(given its own consumption property), nothing for other literals. -/
theorem binary_operand_consumes (E : Ext) (fuel : Nat) (x : JSVal) (st : List JSVal)
    (ihx : ∀ q, x = .pred q → ∀ st' : List JSVal,
        (∀ v ∈ st', plainArg v = true) →
        predicate_recursive_num_args q ≤ st'.length →
        (predicate_eval E fuel q st').2.1 = st'.drop (predicate_recursive_num_args q))
    (hargs : ∀ v ∈ st, plainArg v = true)
    (hlen : operand_num_args x ≤ st.length) :
    (binary_operand E fuel x st).2.1 = st.drop (operand_num_args x) := by
  cases x with
  | undefined =>
    cases st with
    | nil => simp [operand_num_args] at hlen
    | cons y ys =>
      rw [binary_operand]
      have hy : plainArg y = true := hargs y (by simp)
      simp only [js_is_null_or_undefined, js_arguments_shift, operand_num_args,
        List.drop_succ_cons, List.drop_zero, if_true]
      cases y <;> first | rfl | simp [plainArg, isPredVal] at hy
  | null =>
    cases st with
    | nil => simp [operand_num_args] at hlen
    | cons y ys =>
      rw [binary_operand]
      have hy : plainArg y = true := hargs y (by simp)
      simp only [js_is_null_or_undefined, js_arguments_shift, operand_num_args,
        List.drop_succ_cons, List.drop_zero, if_true]
      cases y <;> first | rfl | simp [plainArg, isPredVal] at hy
  | pred q =>
    rw [binary_operand]
    have hc := ihx q rfl st hargs (by simpa [operand_num_args] using hlen)
    simp [js_is_null_or_undefined, operand_num_args, predicate_value, hc]
  | func fid =>
    rw [binary_operand]
    simp [js_is_null_or_undefined, operand_num_args, predicate_value]
  | bool b =>
    rw [binary_operand]
    simp [js_is_null_or_undefined, operand_num_args,
      predicate_value_plain E fuel (.bool b) st (by simp [plainArg, isPredVal])]
  | int n =>
    rw [binary_operand]
    simp [js_is_null_or_undefined, operand_num_args,
      predicate_value_plain E fuel (.int n) st (by simp [plainArg, isPredVal])]
  | str sv =>
    rw [binary_operand]
    simp [js_is_null_or_undefined, operand_num_args,
      predicate_value_plain E fuel (.str sv) st (by simp [plainArg, isPredVal])]
  | obj props =>
    rw [binary_operand]
    simp [js_is_null_or_undefined, operand_num_args,
      predicate_value_plain E fuel (.obj props) st (by simp [plainArg, isPredVal])]
  | uninit =>
    rw [binary_operand]
    simp [js_is_null_or_undefined, operand_num_args,
      predicate_value_plain E fuel (.uninit) st (by simp [plainArg, isPredVal])]
  | throwTypeError =>
    rw [binary_operand]
    simp [js_is_null_or_undefined, operand_num_args,
      predicate_value_plain E fuel (.throwTypeError) st (by simp [plainArg, isPredVal])]
  | ubNullDeref =>
    rw [binary_operand]
    simp [js_is_null_or_undefined, operand_num_args,
      predicate_value_plain E fuel (.ubNullDeref) st (by simp [plainArg, isPredVal])]
  | stuck =>
    rw [binary_operand]
    simp [js_is_null_or_undefined, operand_num_args,
      predicate_value_plain E fuel (.stuck) st (by simp [plainArg, isPredVal])]
  | fnum op2 a1 a2 =>
    rw [binary_operand]
    simp [js_is_null_or_undefined, operand_num_args,
      predicate_value_plain E fuel (.fnum op2 a1 a2) st (by simp [plainArg, isPredVal])]
  | fsqrt a1 =>
    rw [binary_operand]
    simp [js_is_null_or_undefined, operand_num_args,
      predicate_value_plain E fuel (.fsqrt a1) st (by simp [plainArg, isPredVal])]

set_option maxHeartbeats 1600000

/-- The xor loop consumes exactly `boolean_num_args` arguments from a plain
cursor (each predicate operand its own count, other operands nothing). -/
theorem eval_xor_consumes (E : Ext) (fuel : Nat) (ops : List JSVal)
    (ih : ∀ v ∈ ops, ∀ q, v = .pred q → ∀ st' : List JSVal,
        (∀ u ∈ st', plainArg u = true) →
        predicate_recursive_num_args q ≤ st'.length →
        (predicate_eval E fuel q st').2.1 = st'.drop (predicate_recursive_num_args q)) :
    ∀ st acc, (∀ v ∈ st, plainArg v = true) → boolean_num_args ops ≤ st.length →
      (eval_xor E fuel ops st acc).2.1 = st.drop (boolean_num_args ops) := by
  induction ops with
  | nil =>
    intro st acc _ _
    simp [eval_xor, boolean_num_args]
  | cons v rest ihrest =>
    intro st acc hargs hlen
    have ihr := ihrest (fun u hu q hq => ih u (by simp [hu]) q hq)
    simp only [boolean_num_args] at hlen ⊢
    rw [eval_xor]
    cases hvp : isPredVal v with
    | true =>
      obtain ⟨q, rfl⟩ : ∃ q, v = .pred q := by
        cases v <;> simp_all [isPredVal]
      simp only [boolean_operand_num] at hlen ⊢
      have hnq := ih (.pred q) (by simp) q rfl st hargs (by omega)
      rcases hq : predicate_eval E fuel q st with ⟨r, stq, q'⟩
      have hstq : stq = st.drop (predicate_recursive_num_args q) := by
        rw [hq] at hnq
        exact hnq
      have hrest := ihr (st.drop (predicate_recursive_num_args q))
        (acc ^^^ toInt64 r)
        (fun u hu => hargs u (List.drop_subset _ _ hu))
        (by simp only [List.length_drop]; omega)
      rcases hxr : eval_xor E fuel rest
          (st.drop (predicate_recursive_num_args q)) (acc ^^^ toInt64 r)
        with ⟨a2, str, rest'⟩
      rw [hxr] at hrest
      have hstr : str =
          (st.drop (predicate_recursive_num_args q)).drop (boolean_num_args rest) := hrest
      simp only [predicate_value, hq]
      rw [hstq]
      simp only [hxr]
      rw [hstr, List.drop_drop]
    | false =>
      have hpl : plainArg v = true := by simp [plainArg, hvp]
      have hop : boolean_operand_num v = 0 := by
        cases v <;> simp_all [isPredVal, boolean_operand_num]
      have hpv := predicate_value_plain E fuel v st hpl
      rcases hv : predicate_value E fuel v st with ⟨r, st', v'⟩
      have hst' : st' = st := by
        rw [hv] at hpv
        exact hpv
      rw [hop] at hlen ⊢
      have hrest := ihr st (acc ^^^ toInt64 r) hargs (by omega)
      rcases hxr : eval_xor E fuel rest st (acc ^^^ toInt64 r) with ⟨a2, str, rest'⟩
      rw [hxr] at hrest
      have hstr : str = st.drop (boolean_num_args rest) := hrest
      simp only [hv]
      rw [hst']
      simp only [hxr, Nat.zero_add]
      exact hstr

/-- On the `CountsConsumed` fragment, evaluation leaves exactly the cursor
suffix past the first `predicate_recursive_num_args` arguments. -/
theorem eval_consumes_count (E : Ext) (fuel : Nat) (p : Pred)
    (hp : CountsConsumed p) :
    ∀ st : List JSVal, (∀ v ∈ st, plainArg v = true) →
      predicate_recursive_num_args p ≤ st.length →
      (predicate_eval E fuel p st).2.1 = st.drop (predicate_recursive_num_args p) := by
  induction hp with
  | binary op l r hl hr ihl ihr =>
    intro st hargs hlen
    simp only [predicate_recursive_num_args] at hlen ⊢
    rw [predicate_eval]
    rcases h1 : binary_operand E fuel l st with ⟨lv, st1, l'⟩
    have e1 : st1 = st.drop (operand_num_args l) := by
      have hb := binary_operand_consumes E fuel l st ihl hargs (by omega)
      rw [h1] at hb
      exact hb
    rcases h2 : binary_operand E fuel r st1 with ⟨rv, st2, r'⟩
    have e2 : st2 = st1.drop (operand_num_args r) := by
      have hb := binary_operand_consumes E fuel r st1 ihr
        (fun v hv => hargs v (by rw [e1] at hv; exact List.drop_subset _ _ hv))
        (by rw [e1]; simp only [List.length_drop]; omega)
      rw [h2] at hb
      exact hb
    simp only [h1]
    rw [e1] at h2 e2
    rw [e1]
    simp only [h2]
    rw [e2, List.drop_drop]
  | xor ops hops ihops =>
    intro st hargs hlen
    simp only [predicate_recursive_num_args] at hlen ⊢
    rw [predicate_eval]
    have hx := eval_xor_consumes E fuel ops ihops st 0 hargs hlen
    rcases he : eval_xor E fuel ops st 0 with ⟨acc, st', ops'⟩
    rw [he] at hx
    have hst' : st' = st.drop (boolean_num_args ops) := hx
    simp only [he]
    exact hst'
  | member o =>
    intro st hargs hlen
    simp only [predicate_recursive_num_args] at hlen ⊢
    rw [predicate_eval]
    cases st with
    | nil => simp at hlen
    | cons y ys => simp [js_arguments_shift]
  | property a filt hf =>
    intro st hargs hlen
    have hone : predicate_recursive_num_args (.property (some a) filt) = 1 := by
      cases filt <;>
        simp_all [js_is_null_or_undefined, predicate_recursive_num_args, operand_num_args]
    rw [hone] at hlen ⊢
    rw [predicate_eval]
    cases st with
    | nil => simp at hlen
    | cons y ys =>
      simp only [js_arguments_shift, hf, Bool.not_true, Bool.false_and,
        List.drop_succ_cons, List.drop_zero]
      by_cases ho : js_is_object y = true
      · simp [ho]
      · simp [ho]

set_option maxHeartbeats 200000

/-- C3 counterexample: a Not node with an unset operand is counted as one
argument by `predicate_recursive_num_args`, but evaluating it against a
sufficiently long fresh argument array consumes none — the unary family
resolves its operand through `predicate_value`, which passes a
null/undefined operand through unchanged without shifting the cursor
(unlike the binary arithmetic family, which shifts for unset slots). -/
theorem c3_unary_unset_counterexample :
    predicate_recursive_num_args (.not .undefined) = 1 ∧
      (predicate_eval extOk 0 (.not .undefined) [.int 5, .int 6]).2.1 = [.int 5, .int 6] := by
  refine ⟨rfl, ?_⟩
  rw [predicate_eval]
  rw [predicate_value] <;> exact fun _ h' => nomatch h'

/-- C3 (amended): `predicate_recursive_num_args` equals the number of cursor
arguments actually consumed only on the fragment of trees built from binary
arithmetic nodes (operand slots unset, non-predicate literals, or nested
such trees), xor combinators over such operands, member nodes, and property
nodes with a present key and absent post-filter, evaluated against a
sufficiently long argument array of plain (non-predicate) values; outside
the fragment the count diverges from consumption (see the counterexample). -/
theorem c3_count_matches_consumed_on_fragment (E : Ext) (fuel : Nat) (p : Pred)
    (st : List JSVal) (hp : CountsConsumed p)
    (hargs : ∀ v ∈ st, plainArg v = true)
    (hlen : predicate_recursive_num_args p ≤ st.length) :
    st.length - ((predicate_eval E fuel p st).2.1).length
      = predicate_recursive_num_args p := by
  have h := eval_consumes_count E fuel p hp st hargs hlen
  rw [h, List.length_drop]
  omega

/-- Witness for C3 (amended): `Add(unset, unset)` consumes exactly its
counted two arguments. -/
theorem c3_count_matches_consumed_on_fragment_witness :
    (∀ v ∈ [JSVal.int 1, JSVal.int 2, JSVal.int 3], plainArg v = true) ∧
    predicate_recursive_num_args (.binary .add .undefined .null) ≤
      [JSVal.int 1, JSVal.int 2, JSVal.int 3].length ∧
    [JSVal.int 1, JSVal.int 2, JSVal.int 3].length -
      ((predicate_eval extOk 0 (.binary .add .undefined .null)
          [.int 1, .int 2, .int 3]).2.1).length
      = predicate_recursive_num_args (.binary .add .undefined .null) :=
  ⟨by decide, by decide,
   c3_count_matches_consumed_on_fragment extOk 0 (.binary .add .undefined .null)
     [.int 1, .int 2, .int 3]
     (CountsConsumed.binary .add .undefined .null
       (fun _ h => nomatch h) (fun _ h => nomatch h))
     (by decide) (by decide)⟩

end QjsPredicate
